import Mathlib

/-!
Verification of the `loop_ivdep` transpose-and-fold program
(`DirectProgramming/DPC++FPGA/Tutorials/Features/loop_ivdep/src/loop_ivdep.cpp`).

The kernel is embedded shallowly and sequentially.  Matrices are flat
`Nat → α` maps (row-major, as the C++ `std::array<float, kMatrixSize>`),
and the local two-dimensional buffers `in_buffer` / `temp_buffer` are
`Nat → Nat → α` maps updated cell by cell, exactly mirroring the three
loops of the kernel body.  Single-precision addition is kept abstract as a
parameter `add : α → α → α` (with `zero : α` for the literal `0` stored in
`temp_buffer`): every theorem about the sequence of operations performed
then holds for IEEE-754 `float` addition in particular, and exact-arithmetic
consequences are obtained by instantiating `α := Nat` or `α := ℚ`.

The C++ local buffers are uninitialized before the first loop and the
output accessor is declared `no_init`; this junk content is modelled by
explicit parameters `junkIn junkTemp : Nat → Nat → α` and
`junkOut : Nat → α` that seed the folds, so independence from uninitialized
memory is provable rather than assumed.

The `safe_len` template parameter appears in the source only inside the
`[[intel::ivdep(safe_len)]]` attribute and the kernel name: it is a
scheduling hint with no effect on the sequential semantics of the loop
nest, so `TransposeAndFold` carries it as an (unused) argument.

The row length is kept generic (`n`, instantiated at `kRowLength = 128`
for the claims) so that the spec's own `N = 2` worked example can be
evaluated on the very same definition of the kernel.
-/

namespace LoopIvdep

/-- `kRowLength` from the source: the matrix dimension N = 128. -/
def kRowLength : Nat := 128

/-- `kMinSafelen` from the source. -/
def kMinSafelen : Nat := 1

/-- `kMaxSafelen` from the source. -/
def kMaxSafelen : Nat := kRowLength

/-- `kMatrixSize` from the source: N * N = 16384. -/
def kMatrixSize : Nat := kRowLength * kRowLength

/-- Store `v` at cell `(r, c)` of a two-dimensional buffer. -/
def upd2 {α : Type} (f : Nat → Nat → α) (r c : Nat) (v : α) : Nat → Nat → α :=
  fun r' c' => if r' = r then (if c' = c then v else f r' c') else f r' c'

/-- Store `v` at index `k` of a flat buffer. -/
def upd1 {α : Type} (f : Nat → α) (k : Nat) (v : α) : Nat → α :=
  fun k' => if k' = k then v else f k'

/-- One iteration of the kernel's first loop (source lines 48-51):
`in_buffer[i / kRowLength][i % kRowLength] = accessor_input[i]` and
`temp_buffer[i / kRowLength][i % kRowLength] = 0`. -/
def initStep {α : Type} (n : Nat) (input : Nat → α) (zero : α)
    (bufs : (Nat → Nat → α) × (Nat → Nat → α)) (i : Nat) :
    (Nat → Nat → α) × (Nat → Nat → α) :=
  (upd2 bufs.1 (i / n) (i % n) (input i), upd2 bufs.2 (i / n) (i % n) zero)

/-- The kernel's initialization loop, `for (i = 0; i < kMatrixSize; i++)`,
run from the uninitialized contents of the two local buffers. -/
def initBuffers {α : Type} (n : Nat) (input : Nat → α) (zero : α)
    (junkIn junkTemp : Nat → Nat → α) : (Nat → Nat → α) × (Nat → Nat → α) :=
  (List.range (n * n)).foldl (initStep n input zero) (junkIn, junkTemp)

/-- One iteration of the outer accumulation loop (source lines 58-63): the
fully unrolled inner loop `for (i = 0; i < kRowLength; i++)
temp_buffer[j % kRowLength][i] += in_buffer[i][j % kRowLength]`. -/
def accumStep {α : Type} (n : Nat) (add : α → α → α) (inB : Nat → Nat → α)
    (temp : Nat → Nat → α) (j : Nat) : Nat → Nat → α :=
  (List.range n).foldl
    (fun t i => upd2 t (j % n) i (add (t (j % n) i) (inB i (j % n)))) temp

/-- The kernel's accumulation loop,
`for (j = 0; j < kMatrixSize * kRowLength; j++)` (source lines 57-63). -/
def accumLoop {α : Type} (n : Nat) (add : α → α → α)
    (inB temp : Nat → Nat → α) : Nat → Nat → α :=
  (List.range (n * n * n)).foldl (accumStep n add inB) temp

/-- The kernel's output loop (source lines 66-68):
`accessor_output[i] = temp_buffer[i / kRowLength][i % kRowLength]`, run from
the `no_init` contents of the output buffer. -/
def writeOutput {α : Type} (n : Nat) (temp : Nat → Nat → α) (junkOut : Nat → α) :
    Nat → α :=
  (List.range (n * n)).foldl (fun out i => upd1 out i (temp (i / n) (i % n))) junkOut

/-- The body of the `KernelCompute` kernel (source lines 42-69): initialize
the local buffers, run the accumulation loop, write the result out. -/
def kernelCompute {α : Type} (n : Nat) (add : α → α → α) (zero : α) (input : Nat → α)
    (junkIn junkTemp : Nat → Nat → α) (junkOut : Nat → α) : Nat → α :=
  writeOutput n
    (accumLoop n add (initBuffers n input zero junkIn junkTemp).1
      (initBuffers n input zero junkIn junkTemp).2)
    junkOut

/-- `TransposeAndFold<safe_len>` (source lines 26-69): submits
`KernelCompute<safe_len>` on the input.  The template parameter `safe_len`
occurs only in the `[[intel::ivdep(safe_len)]]` hint and the kernel's name,
never in the computation, so the embedding carries it unused. -/
def TransposeAndFold {α : Type} (n safe_len : Nat) (add : α → α → α) (zero : α)
    (input : Nat → α) (junkIn junkTemp : Nat → Nat → α) (junkOut : Nat → α) :
    Nat → α :=
  kernelCompute n add zero input junkIn junkTemp junkOut

/-- The verification loop of `main` (source lines 123-128): walk the indices
in order, return 1 at the first mismatch, 0 if all elements agree. -/
def verifyLoop {α : Type} [DecidableEq α] : List Nat → (Nat → α) → (Nat → α) → Nat
  | [], _, _ => 0
  | i :: rest, b, c => if b i = c i then verifyLoop rest b c else 1

/-- The exit status computed by `main` (source lines 117-131): run
`TransposeAndFold<kMinSafelen>` and `TransposeAndFold<kMaxSafelen>` on the
same input (into separately uninitialized arrays `B` and `C`) and compare
element by element. -/
def mainResult {α : Type} [DecidableEq α] (add : α → α → α) (zero : α)
    (input : Nat → α) (jI1 jT1 : Nat → Nat → α) (jO1 : Nat → α)
    (jI2 jT2 : Nat → Nat → α) (jO2 : Nat → α) : Nat :=
  verifyLoop (List.range kMatrixSize)
    (TransposeAndFold kRowLength kMinSafelen add zero input jI1 jT1 jO1)
    (TransposeAndFold kRowLength kMaxSafelen add zero input jI2 jT2 jO2)

/-- `RAND_MAX` of the C library on the tutorial's target platform (glibc);
the C standard guarantees `rand()` returns a value in `[0, RAND_MAX]`,
inclusive at both ends. -/
def RAND_MAX : Nat := 2147483647

/-- One element of the harness's random input (source line 106):
`static_cast<float>(rand()) / static_cast<float>(RAND_MAX)`, in exact
rational arithmetic, as a function of the value `r` returned by `rand()`. -/
def harnessElement (r : Nat) : ℚ := (r : ℚ) / (RAND_MAX : ℚ)

/-- The spec's N = 2 worked example input `[[1, 2], [3, 4]]`, row-major. -/
def specExampleInput : Nat → Nat :=
  fun i => if i = 0 then 1 else if i = 1 then 2 else if i = 2 then 3 else 4

/-! ### Index arithmetic -/

theorem rowcol_div {n r c : Nat} (hn : 0 < n) (hc : c < n) : (r * n + c) / n = r := by
  rw [Nat.mul_comm r n, Nat.mul_add_div hn, Nat.div_eq_of_lt hc]
  omega

theorem rowcol_mod {n r c : Nat} (hc : c < n) : (r * n + c) % n = c := by
  rw [Nat.mul_comm r n, Nat.mul_add_mod, Nat.mod_eq_of_lt hc]

theorem div_mod_pair_eq {n : Nat} (hn : 0 < n) {r c i : Nat} (hc : c < n) :
    (r = i / n ∧ c = i % n) ↔ r * n + c = i := by
  constructor
  · rintro ⟨rfl, rfl⟩
    rw [Nat.mul_comm]
    exact Nat.div_add_mod i n
  · rintro rfl
    exact ⟨(rowcol_div hn hc).symm, (rowcol_mod hc).symm⟩

theorem index_lt {n r c : Nat} (hr : r < n) (hc : c < n) : r * n + c < n * n :=
  calc r * n + c < r * n + n := by omega
    _ = (r + 1) * n := by ring
    _ ≤ n * n := Nat.mul_le_mul_right n hr

/-! ### The initialization loop -/

theorem foldl_prod {β γ δ : Type} (f : β → δ → β) (g : γ → δ → γ) (l : List δ) :
    ∀ (b : β) (c : γ),
      l.foldl (fun p d => (f p.1 d, g p.2 d)) (b, c) = (l.foldl f b, l.foldl g c) := by
  induction l with
  | nil => intro b c; rfl
  | cons d l ih => intro b c; exact ih (f b d) (g c d)

theorem initBuffers_eq_pair {α : Type} (n : Nat) (input : Nat → α) (zero : α)
    (junkIn junkTemp : Nat → Nat → α) :
    initBuffers n input zero junkIn junkTemp
      = ((List.range (n * n)).foldl
          (fun b i => upd2 b (i / n) (i % n) (input i)) junkIn,
         (List.range (n * n)).foldl
          (fun b i => upd2 b (i / n) (i % n) zero) junkTemp) := by
  unfold initBuffers initStep
  exact foldl_prod (fun b i => upd2 b (i / n) (i % n) (input i))
    (fun b i => upd2 b (i / n) (i % n) zero) (List.range (n * n)) junkIn junkTemp

theorem foldl_upd2_divmod {α : Type} {n : Nat} (hn : 0 < n) (g : Nat → α)
    (l : List Nat) :
    ∀ (junk : Nat → Nat → α) (r c : Nat), c < n →
      (l.foldl (fun buf i => upd2 buf (i / n) (i % n) (g i)) junk) r c
        = if r * n + c ∈ l then g (r * n + c) else junk r c := by
  induction l with
  | nil => intro junk r c _; simp
  | cons i l ih =>
    intro junk r c hc
    rw [List.foldl_cons, ih _ r c hc]
    by_cases hmem : r * n + c ∈ l
    · simp [hmem]
    · by_cases heq : r * n + c = i
      · subst heq
        simp [hmem, upd2, rowcol_div hn hc, rowcol_mod hc]
      · have hne : ¬(r = i / n ∧ c = i % n) := fun h =>
          heq ((div_mod_pair_eq hn hc).mp h)
        have hul : upd2 junk (i / n) (i % n) (g i) r c = junk r c := by
          by_cases h1 : r = i / n
          · have h2 : ¬ c = i % n := fun h2 => hne ⟨h1, h2⟩
            simp [upd2, h1, h2]
          · simp [upd2, h1]
        simp [hmem, heq, hul]

theorem initBuffers_fst {α : Type} {n : Nat} (hn : 0 < n) (input : Nat → α) (zero : α)
    (junkIn junkTemp : Nat → Nat → α) (r c : Nat) (hr : r < n) (hc : c < n) :
    (initBuffers n input zero junkIn junkTemp).1 r c = input (r * n + c) := by
  rw [initBuffers_eq_pair]
  dsimp only
  rw [foldl_upd2_divmod hn input (List.range (n * n)) junkIn r c hc]
  simp [List.mem_range, index_lt hr hc]

theorem initBuffers_snd {α : Type} {n : Nat} (hn : 0 < n) (input : Nat → α) (zero : α)
    (junkIn junkTemp : Nat → Nat → α) (r c : Nat) (hr : r < n) (hc : c < n) :
    (initBuffers n input zero junkIn junkTemp).2 r c = zero := by
  rw [initBuffers_eq_pair]
  dsimp only
  rw [foldl_upd2_divmod hn (fun _ => zero) (List.range (n * n)) junkTemp r c hc]
  simp [List.mem_range, index_lt hr hc]

/-! ### The output loop -/

theorem foldl_upd1_eq {α : Type} (g : Nat → α) (l : List Nat) :
    ∀ (junk : Nat → α) (k : Nat),
      (l.foldl (fun out i => upd1 out i (g i)) junk) k
        = if k ∈ l then g k else junk k := by
  induction l with
  | nil => intro junk k; simp
  | cons i l ih =>
    intro junk k
    rw [List.foldl_cons, ih]
    by_cases hmem : k ∈ l
    · simp [hmem]
    · by_cases heq : k = i
      · subst heq; simp [hmem, upd1]
      · simp [hmem, heq, upd1]

theorem writeOutput_eq {α : Type} {n : Nat} (temp : Nat → Nat → α) (junkOut : Nat → α)
    (k : Nat) (hk : k < n * n) :
    writeOutput n temp junkOut k = temp (k / n) (k % n) := by
  unfold writeOutput
  rw [foldl_upd1_eq (fun i => temp (i / n) (i % n)) (List.range (n * n)) junkOut k]
  simp [List.mem_range, hk]

/-! ### The accumulation loop -/

theorem innerFold_eq {α : Type} (add : α → α → α) (inB : Nat → Nat → α) (row : Nat) :
    ∀ (l : List Nat), l.Nodup → ∀ (temp : Nat → Nat → α) (r c : Nat),
      (l.foldl (fun t i => upd2 t row i (add (t row i) (inB i row))) temp) r c
        = if r = row ∧ c ∈ l then add (temp row c) (inB c row) else temp r c := by
  intro l
  induction l with
  | nil => intro _ temp r c; simp
  | cons i l ih =>
    intro hnd temp r c
    have hin : i ∉ l := (List.nodup_cons.mp hnd).1
    have hnd' : l.Nodup := (List.nodup_cons.mp hnd).2
    rw [List.foldl_cons, ih hnd' _ r c]
    by_cases hA : r = row ∧ c ∈ l
    · have hci : ¬ c = i := fun h => hin (h ▸ hA.2)
      have : upd2 temp row i (add (temp row i) (inB i row)) row c = temp row c := by
        simp [upd2, hci]
      simp [hA, hA.1, hA.2, this]
    · by_cases hB : r = row ∧ c = i
      · rcases hB with ⟨rfl, rfl⟩
        simp [hA, hin, upd2]
      · have hup : upd2 temp row i (add (temp row i) (inB i row)) r c = temp r c := by
          by_cases h1 : r = row
          · have h2 : ¬ c = i := fun h2 => hB ⟨h1, h2⟩
            simp [upd2, h1, h2]
          · simp [upd2, h1]
        have hmem : ¬ (r = row ∧ (c = i ∨ c ∈ l)) := by
          rintro ⟨h1, h2 | h3⟩
          · exact hB ⟨h1, h2⟩
          · exact hA ⟨h1, h3⟩
        simp [hA, List.mem_cons, hmem, hup]

theorem accumStep_eq {α : Type} {n : Nat} (add : α → α → α) (inB : Nat → Nat → α)
    (temp : Nat → Nat → α) (j r c : Nat) (hc : c < n) :
    accumStep n add inB temp j r c
      = if r = j % n then add (temp r c) (inB c (j % n)) else temp r c := by
  unfold accumStep
  rw [innerFold_eq add inB (j % n) (List.range n) (List.nodup_range n) temp r c]
  by_cases h : r = j % n <;> simp [h, List.mem_range, hc]

theorem accumFold_list_eq {α : Type} {n : Nat} (add : α → α → α) (inB : Nat → Nat → α)
    (l : List Nat) :
    ∀ (temp : Nat → Nat → α) (r c : Nat), c < n →
      (l.foldl (accumStep n add inB) temp) r c
        = (fun v => add v (inB c r))^[l.countP (fun j => j % n == r)] (temp r c) := by
  induction l with
  | nil => intro temp r c _; simp
  | cons j l ih =>
    intro temp r c hc
    rw [List.foldl_cons, ih _ r c hc, List.countP_cons,
      accumStep_eq add inB temp j r c hc]
    by_cases h : j % n = r
    · simp [h, Function.iterate_succ_apply]
    · have h' : ¬ r = j % n := fun h' => h h'.symm
      simp [h, h']

theorem countP_mod_range_small {n r : Nat} (hr : r < n) :
    ∀ m : Nat, m ≤ n →
      (List.range m).countP (fun j => j % n == r) = if r < m then 1 else 0 := by
  intro m
  induction m with
  | zero => intro _; simp
  | succ m ih =>
    intro hm
    rw [List.range_succ, List.countP_append, ih (Nat.le_of_succ_le hm)]
    have hmn : m % n = m := Nat.mod_eq_of_lt (Nat.lt_of_lt_of_le (Nat.lt_succ_self m) hm)
    by_cases h : r = m
    · have h1 : ¬ r < m := by omega
      have h2 : r < m + 1 := by omega
      simp [h1, h2, List.countP_cons, hmn, h]
    · by_cases h3 : r < m
      · have h4 : r < m + 1 := by omega
        simp [h3, h4, List.countP_cons, hmn, Ne.symm h]
      · have h4 : ¬ r < m + 1 := by omega
        simp [h3, h4, List.countP_cons, hmn, Ne.symm h]

theorem countP_mod_range {n r : Nat} (hr : r < n) :
    ∀ k : Nat, (List.range (k * n)).countP (fun j => j % n == r) = k := by
  intro k
  induction k with
  | zero => simp
  | succ k ih =>
    have hkn : (k + 1) * n = k * n + n := by ring
    rw [hkn, List.range_add, List.countP_append, ih, List.countP_map]
    have : ((fun j => j % n == r) ∘ (fun j => k * n + j)) = (fun j => j % n == r) := by
      funext j
      simp only [Function.comp]
      rw [Nat.mul_comm k n, Nat.mul_add_mod]
    rw [this, countP_mod_range_small hr n (Nat.le_refl n)]
    simp [hr]

theorem accumLoop_eq {α : Type} {n : Nat} (add : α → α → α) (inB temp : Nat → Nat → α)
    (r c : Nat) (hr : r < n) (hc : c < n) :
    accumLoop n add inB temp r c
      = (fun v => add v (inB c r))^[n * n] (temp r c) := by
  unfold accumLoop
  rw [accumFold_list_eq add inB (List.range (n * n * n)) temp r c hc]
  rw [countP_mod_range hr (n * n)]

/-! ### The whole kernel -/

theorem kernelCompute_char {α : Type} {n : Nat} (hn : 0 < n) (add : α → α → α)
    (zero : α) (input : Nat → α) (junkIn junkTemp : Nat → Nat → α) (junkOut : Nat → α)
    (r c : Nat) (hr : r < n) (hc : c < n) :
    kernelCompute n add zero input junkIn junkTemp junkOut (r * n + c)
      = (fun v => add v (input (c * n + r)))^[n * n] zero := by
  unfold kernelCompute
  rw [writeOutput_eq _ _ _ (index_lt hr hc), rowcol_div hn hc, rowcol_mod hc]
  rw [accumLoop_eq add _ _ r c hr hc]
  rw [initBuffers_snd hn input zero junkIn junkTemp r c hr hc]
  rw [initBuffers_fst hn input zero junkIn junkTemp c r hc hr]

theorem kernelCompute_flat {α : Type} {n : Nat} (hn : 0 < n) (add : α → α → α)
    (zero : α) (input : Nat → α) (junkIn junkTemp : Nat → Nat → α) (junkOut : Nat → α)
    (i : Nat) (hi : i < n * n) :
    kernelCompute n add zero input junkIn junkTemp junkOut i
      = (fun v => add v (input ((i % n) * n + i / n)))^[n * n] zero := by
  have hr : i / n < n := Nat.div_lt_of_lt_mul hi
  have hc : i % n < n := Nat.mod_lt _ hn
  have hsplit : i / n * n + i % n = i := by
    rw [Nat.mul_comm]
    exact Nat.div_add_mod i n
  have h2 := kernelCompute_char hn add zero input junkIn junkTemp junkOut
    (i / n) (i % n) hr hc
  rw [hsplit] at h2
  exact h2

/-! ### Iteration helpers -/

theorem iterate_fixed {α : Type} (f : α → α) (x : α) (hx : f x = x) :
    ∀ k : Nat, f^[k] x = x := by
  intro k
  induction k with
  | zero => rfl
  | succ k ih => rw [Function.iterate_succ_apply, hx, ih]

theorem iterate_add_const (a : Nat) :
    ∀ (k x : Nat), (fun v => Nat.add v a)^[k] x = x + k * a := by
  intro k
  induction k with
  | zero => intro x; simp
  | succ k ih =>
    intro x
    rw [Function.iterate_succ_apply, ih]
    show x + a + k * a = x + (k + 1) * a
    ring

/-! ### The verification loop of `main` -/

theorem verifyLoop_zero_iff {α : Type} [DecidableEq α] :
    ∀ (l : List Nat) (b c : Nat → α),
      verifyLoop l b c = 0 ↔ ∀ i ∈ l, b i = c i := by
  intro l
  induction l with
  | nil => intro b c; simp [verifyLoop]
  | cons i l ih =>
    intro b c
    unfold verifyLoop
    by_cases h : b i = c i
    · rw [if_pos h, ih]
      simp [h]
    · rw [if_neg h]
      simp [h]

theorem verifyLoop_zero_or_one {α : Type} [DecidableEq α] :
    ∀ (l : List Nat) (b c : Nat → α),
      verifyLoop l b c = 0 ∨ verifyLoop l b c = 1 := by
  intro l
  induction l with
  | nil => intro b c; left; rfl
  | cons i l ih =>
    intro b c
    unfold verifyLoop
    by_cases h : b i = c i
    · rw [if_pos h]; exact ih b c
    · rw [if_neg h]; right; rfl

theorem verifyLoop_eq_zero {α : Type} [DecidableEq α] (l : List Nat) (b c : Nat → α)
    (h : ∀ i ∈ l, b i = c i) : verifyLoop l b c = 0 :=
  (verifyLoop_zero_iff l b c).mpr h

/-! ### Claims -/

/-- C1: for every input matrix and any two `safe_len` values in
[kMinSafelen, kMaxSafelen], `TransposeAndFold` produces element-for-element
identical output matrices — for any addition operation whatsoever, hence in
particular bit-for-bit on IEEE-754 floats — regardless of the uninitialized
contents of the local buffers and output arrays of the two runs. -/
theorem C1_output_independent_of_safe_len {α : Type} (add : α → α → α) (zero : α)
    (input : Nat → α) (jI1 jT1 : Nat → Nat → α) (jO1 : Nat → α)
    (jI2 jT2 : Nat → Nat → α) (jO2 : Nat → α) (s1 s2 : Nat)
    (hs1 : kMinSafelen ≤ s1) (hs1' : s1 ≤ kMaxSafelen)
    (hs2 : kMinSafelen ≤ s2) (hs2' : s2 ≤ kMaxSafelen)
    (i : Nat) (hi : i < kMatrixSize) :
    TransposeAndFold kRowLength s1 add zero input jI1 jT1 jO1 i
      = TransposeAndFold kRowLength s2 add zero input jI2 jT2 jO2 i := by
  show kernelCompute kRowLength add zero input jI1 jT1 jO1 i
    = kernelCompute kRowLength add zero input jI2 jT2 jO2 i
  rw [kernelCompute_flat (by decide) add zero input jI1 jT1 jO1 i hi,
    kernelCompute_flat (by decide) add zero input jI2 jT2 jO2 i hi]

/-- C1 witness: safe_len 1 versus safe_len 128 on a concrete input. -/
theorem C1_witness :
    TransposeAndFold kRowLength 1 Nat.add 0 (fun k => k) (fun _ _ => 3) (fun _ _ => 4)
        (fun _ => 5) 0
      = TransposeAndFold kRowLength 128 Nat.add 0 (fun k => k) (fun _ _ => 6)
        (fun _ _ => 7) (fun _ => 8) 0 :=
  C1_output_independent_of_safe_len Nat.add 0 (fun k => k) (fun _ _ => 3) (fun _ _ => 4)
    (fun _ => 5) (fun _ _ => 6) (fun _ _ => 7) (fun _ => 8) 1 128
    (by decide) (by decide) (by decide) (by decide) 0 (by decide)

/-- C2 counterexample: on the spec's own N = 2 example, input [[1,2],[3,4]]
(exact arithmetic over Nat), the kernel's output at flat index 1 (cell
(0, 1)) is 12, not the 4 the claimed column-sum formula predicts. -/
theorem C2_counterexample :
    kernelCompute 2 Nat.add 0 specExampleInput (fun _ _ => 0) (fun _ _ => 0)
        (fun _ => 0) 1 = 12
    ∧ kernelCompute 2 Nat.add 0 specExampleInput (fun _ _ => 0) (fun _ _ => 0)
        (fun _ => 0) 1 ≠ 4 := by
  constructor <;> decide

/-- C2 (amended): in exact arithmetic the kernel's output satisfies
`Output[r][c] = kMatrixSize * Input[c][r]` — N * N = 16384 copies of the
transposed input element, which depends on the column c — not the column sum
`Σ_p Input[p][r]`, and output rows are in general not constant. -/
theorem C2_amended_output_value (input : Nat → Nat) (jI jT : Nat → Nat → Nat)
    (jO : Nat → Nat) (r c : Nat) (hr : r < kRowLength) (hc : c < kRowLength) :
    kernelCompute kRowLength Nat.add 0 input jI jT jO (r * kRowLength + c)
      = kMatrixSize * input (c * kRowLength + r) := by
  rw [kernelCompute_char (by decide) Nat.add 0 input jI jT jO r c hr hc]
  rw [iterate_add_const (input (c * kRowLength + r)) (kRowLength * kRowLength) 0]
  simp [kMatrixSize]

/-- C2 witness: the all-ones matrix, cell (0, 0). -/
theorem C2_amended_witness :
    kernelCompute kRowLength Nat.add 0 (fun _ => 1) (fun _ _ => 0) (fun _ _ => 0)
        (fun _ => 0) 0 = kMatrixSize * 1 :=
  C2_amended_output_value (fun _ => 1) (fun _ _ => 0) (fun _ _ => 0) (fun _ => 0) 0 0
    (by decide) (by decide)

/-- C3: for every input matrix and output cell (r, c), the kernel writes the
left fold that starts from `zero` (0.0f) and applies `add · (input (c*N + r))`
exactly kMatrixSize = N * N = 16384 times (one addition per outer iteration j
with j % N = r), so the value depends on the output column c, not only on the
row r. -/
theorem C3_output_is_fold {α : Type} (add : α → α → α) (zero : α) (input : Nat → α)
    (jI jT : Nat → Nat → α) (jO : Nat → α) (r c : Nat)
    (hr : r < kRowLength) (hc : c < kRowLength) :
    kernelCompute kRowLength add zero input jI jT jO (r * kRowLength + c)
      = (fun v => add v (input (c * kRowLength + r)))^[kMatrixSize] zero :=
  kernelCompute_char (by decide) add zero input jI jT jO r c hr hc

/-- C3 witness at cell (1, 2). -/
theorem C3_witness :
    kernelCompute kRowLength Nat.add 0 (fun k => k) (fun _ _ => 9) (fun _ _ => 9)
        (fun _ => 9) (1 * kRowLength + 2)
      = (fun v => Nat.add v (2 * kRowLength + 1))^[kMatrixSize] 0 :=
  C3_output_is_fold Nat.add 0 (fun k => k) (fun _ _ => 9) (fun _ _ => 9) (fun _ => 9)
    1 2 (by decide) (by decide)

/-- C4: the accumulator buffer starts all zero, the working buffer holds the
row-major input, each outer iteration j (ranging over [0, N*N*N) in
`accumLoop`) performs `accumulator[j % N][i] += working[i][j % N]` for every
unrolled inner index i < N, and afterwards the accumulator is copied verbatim
into the output matrix. -/
theorem C4_loop_structure {α : Type} (add : α → α → α) (zero : α) (input : Nat → α)
    (jI jT : Nat → Nat → α) (jO : Nat → α) (temp : Nat → Nat → α)
    (j r c i : Nat) (hr : r < kRowLength) (hc : c < kRowLength) (hi : i < kMatrixSize) :
    (initBuffers kRowLength input zero jI jT).2 r c = zero
    ∧ (initBuffers kRowLength input zero jI jT).1 r c = input (r * kRowLength + c)
    ∧ accumStep kRowLength add (initBuffers kRowLength input zero jI jT).1 temp j r c
        = (if r = j % kRowLength
           then add (temp r c)
             ((initBuffers kRowLength input zero jI jT).1 c (j % kRowLength))
           else temp r c)
    ∧ kernelCompute kRowLength add zero input jI jT jO i
        = accumLoop kRowLength add (initBuffers kRowLength input zero jI jT).1
            (initBuffers kRowLength input zero jI jT).2
            (i / kRowLength) (i % kRowLength) := by
  refine ⟨initBuffers_snd (by decide) input zero jI jT r c hr hc,
    initBuffers_fst (by decide) input zero jI jT r c hr hc,
    accumStep_eq add _ temp j r c hc, ?_⟩
  unfold kernelCompute
  exact writeOutput_eq _ jO i hi

/-- C4 witness: the accumulator cell (0, 0) starts at zero. -/
theorem C4_witness :
    (initBuffers kRowLength (fun k => k) 0 (fun _ _ => 5) (fun _ _ => 5)).2 0 0 = 0 :=
  (@C4_loop_structure Nat Nat.add 0 (fun k => k) (fun _ _ => 5) (fun _ _ => 5)
    (fun _ => 5) (fun _ _ => 5) 0 0 0 0 (by decide) (by decide) (by decide)).1

/-- C5: the element-by-element comparison in main yields exit status 0 exactly
when all kMatrixSize corresponding elements of the two output arrays are
equal, and yields exit status 1 exactly when some element differs (stopping
at the first mismatch); the comparison never produces any other status. -/
theorem C5_exit_code_contract {α : Type} [DecidableEq α] (b c : Nat → α) :
    (verifyLoop (List.range kMatrixSize) b c = 0 ↔ ∀ i, i < kMatrixSize → b i = c i)
    ∧ (verifyLoop (List.range kMatrixSize) b c = 1
        ↔ ¬ ∀ i, i < kMatrixSize → b i = c i) := by
  have h0 := verifyLoop_zero_iff (List.range kMatrixSize) b c
  have h01 := verifyLoop_zero_or_one (List.range kMatrixSize) b c
  constructor
  · rw [h0]
    simp [List.mem_range]
  · constructor
    · intro h1 hall
      have h2 : verifyLoop (List.range kMatrixSize) b c = 0 := by
        rw [h0]
        intro k hk
        exact hall k (List.mem_range.mp hk)
      omega
    · intro hnall
      rcases h01 with h | h
      · exact absurd (fun k hk => (h0.mp h) k (List.mem_range.mpr hk)) hnall
      · exact h

/-- C6 counterexample: nothing in the code rejects an out-of-range safe_len.
Instantiating TransposeAndFold at safe_len = kRowLength + 1 = 129 > N runs
the kernel and produces an output matrix (evaluated here at index 0 on the
all-zero input). -/
theorem C6_counterexample :
    TransposeAndFold kRowLength (kRowLength + 1) Nat.add 0 (fun _ => 0)
      (fun _ _ => 0) (fun _ _ => 0) (fun _ => 0) 0 = 0 := by
  show kernelCompute kRowLength Nat.add 0 (fun _ => 0) (fun _ _ => 0) (fun _ _ => 0)
    (fun _ => 0) 0 = 0
  rw [kernelCompute_flat (by decide) Nat.add 0 (fun _ => 0) (fun _ _ => 0)
    (fun _ _ => 0) (fun _ => 0) 0 (by decide)]
  rw [iterate_add_const 0 (kRowLength * kRowLength) 0]
  simp

/-- C6 (amended): TransposeAndFold performs no validation of safe_len at all:
every instantiation, in range or not, computes exactly the same output
function as safe_len = kMinSafelen, because safe_len never enters the
computation. -/
theorem C6_amended_no_validation {α : Type} (add : α → α → α) (zero : α)
    (input : Nat → α) (jI jT : Nat → Nat → α) (jO : Nat → α) (safe_len i : Nat) :
    TransposeAndFold kRowLength safe_len add zero input jI jT jO i
      = TransposeAndFold kRowLength kMinSafelen add zero input jI jT jO i := rfl

/-- C7: if adding zero to zero yields zero (as IEEE-754 single-precision
addition does for +0.0f) and every input element is zero, then for every
safe_len in [kMinSafelen, kMaxSafelen] every element of the output matrix is
zero. -/
theorem C7_zero_input_zero_output {α : Type} (add : α → α → α) (zero : α)
    (hadd : add zero zero = zero) (input : Nat → α) (hin : ∀ k, input k = zero)
    (safe_len : Nat) (hs : kMinSafelen ≤ safe_len) (hs' : safe_len ≤ kMaxSafelen)
    (jI jT : Nat → Nat → α) (jO : Nat → α) (i : Nat) (hi : i < kMatrixSize) :
    TransposeAndFold kRowLength safe_len add zero input jI jT jO i = zero := by
  have h1 := @kernelCompute_flat α kRowLength (by decide) add zero input jI jT jO i hi
  have h2 : input ((i % kRowLength) * kRowLength + i / kRowLength) = zero := hin _
  rw [h2] at h1
  exact h1.trans
    (iterate_fixed (fun v => add v zero) zero hadd (kRowLength * kRowLength))

/-- C7 witness: all-zero input over Nat with safe_len = 1, index 0. -/
theorem C7_witness :
    TransposeAndFold kRowLength 1 Nat.add 0 (fun _ => 0) (fun _ _ => 7) (fun _ _ => 8)
      (fun _ => 9) 0 = 0 :=
  @C7_zero_input_zero_output Nat Nat.add 0 rfl (fun _ => 0) (fun _ => rfl) 1 (by decide)
    (by decide) (fun _ _ => 7) (fun _ _ => 8) (fun _ => 9) 0 (by decide)

/-- C8: determinism — with the identical input matrix and identical safe_len,
two invocations of TransposeAndFold produce identical output matrices even if
the uninitialized prior contents of the local buffers and of the output array
differ between the invocations: the output is a pure function of the input
and safe_len, with no hidden state. -/
theorem C8_deterministic {α : Type} (add : α → α → α) (zero : α) (input : Nat → α)
    (safe_len : Nat) (jI jT : Nat → Nat → α) (jO : Nat → α)
    (jI' jT' : Nat → Nat → α) (jO' : Nat → α) (i : Nat) (hi : i < kMatrixSize) :
    TransposeAndFold kRowLength safe_len add zero input jI jT jO i
      = TransposeAndFold kRowLength safe_len add zero input jI' jT' jO' i := by
  show kernelCompute kRowLength add zero input jI jT jO i
    = kernelCompute kRowLength add zero input jI' jT' jO' i
  rw [kernelCompute_flat (by decide) add zero input jI jT jO i hi,
    kernelCompute_flat (by decide) add zero input jI' jT' jO' i hi]

/-- C8 witness: two runs with different uninitialized buffer contents. -/
theorem C8_witness :
    TransposeAndFold kRowLength 64 Nat.add 0 (fun k => k) (fun _ _ => 1) (fun _ _ => 2)
        (fun _ => 3) 5
      = TransposeAndFold kRowLength 64 Nat.add 0 (fun k => k) (fun _ _ => 4)
        (fun _ _ => 5) (fun _ => 6) 5 :=
  C8_deterministic Nat.add 0 (fun k => k) 64 (fun _ _ => 1) (fun _ _ => 2) (fun _ => 3)
    (fun _ _ => 4) (fun _ _ => 5) (fun _ => 6) 5 (by decide)

/-- C9 counterexample: `rand()` may return RAND_MAX itself, in which case the
generated matrix element equals 1 exactly — it is not strictly less than 1. -/
theorem C9_counterexample : ¬ (harnessElement RAND_MAX < 1) := by
  have h1 : harnessElement RAND_MAX = 1 := by
    norm_num [harnessElement, RAND_MAX]
  rw [h1]
  exact lt_irrefl 1

/-- C9 (amended): every element of the randomly generated input matrix lies in
the closed interval [0, 1]: it is at least 0 and at most 1, with 1 attained
exactly when rand() returns RAND_MAX. -/
theorem C9_amended_range (r : Nat) (hr : r ≤ RAND_MAX) :
    0 ≤ harnessElement r ∧ harnessElement r ≤ 1 := by
  unfold harnessElement
  constructor
  · positivity
  · rw [div_le_one (by norm_num [RAND_MAX] : (0 : ℚ) < (RAND_MAX : ℚ))]
    exact_mod_cast hr

/-- C9 witness at a concrete rand() value. -/
theorem C9_witness : 0 ≤ harnessElement 12345 ∧ harnessElement 12345 ≤ 1 :=
  C9_amended_range 12345 (by decide)

/-- C10: the mismatch branch of main is unreachable — for every input matrix
and arbitrary uninitialized buffer contents in the two runs, the comparison
of the TransposeAndFold kMinSafelen and kMaxSafelen outputs succeeds on every
element and main's result is exit status 0 (so the FAILED message is never
reached). -/
theorem C10_mismatch_unreachable {α : Type} [DecidableEq α] (add : α → α → α)
    (zero : α) (input : Nat → α) (jI1 jT1 : Nat → Nat → α) (jO1 : Nat → α)
    (jI2 jT2 : Nat → Nat → α) (jO2 : Nat → α) :
    mainResult add zero input jI1 jT1 jO1 jI2 jT2 jO2 = 0 := by
  unfold mainResult
  apply verifyLoop_eq_zero
  intro i hi
  have hi' : i < kMatrixSize := List.mem_range.mp hi
  show kernelCompute kRowLength add zero input jI1 jT1 jO1 i
    = kernelCompute kRowLength add zero input jI2 jT2 jO2 i
  rw [kernelCompute_flat (by decide) add zero input jI1 jT1 jO1 i hi',
    kernelCompute_flat (by decide) add zero input jI2 jT2 jO2 i hi']

end LoopIvdep
